import Mathlib

/-!
Shallow embedding of the discrete-event simulation core of the BasicLerts
repository (`src/sim3.py`, and the `handle_requests` variant of `src/sim4.py`),
together with theorems settling the frozen claims about it.

Modelling conventions:
* Python floats are embedded as `ℚ` (exact field arithmetic).
* Randomness is passed explicitly: `np.random.exponential sc` is embedded as
  `sc * u` for a non-negative standard draw `u`; `np.random.uniform 0 R` and
  `random.choice` become explicit `dist` / `dir` arguments.  Side conditions on
  draws (`0 ≤ u`, `0 ≤ dist`) mirror the support of the distributions.
* Python object mutation becomes explicit state passing; the `requests` list is
  indexed, and event payloads (`None` or a `Request` reference) become
  `Option ℕ` holding the index of the referenced request.
* The module-level globals `REQUEST_RATE`, `LERT_SPEED`, … of `sim3.py` are a
  separate `Config` structure passed alongside the per-instance `SimState`,
  mirroring the fact that they are process-wide and not instance fields.
* `heapq` is embedded as a list: `heappush` appends, and `popMin` removes the
  leftmost element minimal for the key `(event_time, event_type)`.  The Python
  tuples compare the type strings (`'arrival' < 'complete'`) before the
  payload; ties on both time and type fall through to comparing the payload
  objects in the source, which the C1 theorem addresses.
-/

namespace BasicLerts

/-- `random.choice(['to_station', 'from_station'])` in `handle_arrival_event`. -/
inductive Direction where
  | to_station
  | from_station
deriving DecidableEq, Repr

/-- The `Request` class of `sim3.py`: creation time, distance from the hub,
direction, assignment flag, and the wait/travel bookkeeping fields that start
out as `None`. -/
structure Request where
  time : ℚ
  distance : ℚ
  direction : Direction
  assigned : Bool
  wait_start : ℚ
  wait_end : Option ℚ
  travel_time : Option ℚ
deriving DecidableEq, Repr

/-- `Request.__init__(time, distance, direction)`. -/
def Request.create (time distance : ℚ) (direction : Direction) : Request :=
  { time := time, distance := distance, direction := direction,
    assigned := false, wait_start := time, wait_end := none, travel_time := none }

/-- The `status` string of a `Lert` ('idle' or 'busy').  It is written by
`Lert.assign` but never read back by the simulation logic. -/
inductive LertStatus where
  | idle
  | busy
deriving DecidableEq, Repr

/-- The `Lert` class of `sim3.py`. -/
structure Lert where
  id : ℕ
  speed : ℚ
  status : LertStatus
  next_free_time : ℚ
  total_trips : ℕ
deriving DecidableEq, Repr

/-- `Lert.__init__(id, speed)`. -/
def Lert.create (id : ℕ) (speed : ℚ) : Lert :=
  { id := id, speed := speed, status := .idle, next_free_time := 0, total_trips := 0 }

/-- `Lert.assign(current_time, request)`: marks the vehicle busy, computes the
round-trip travel time (to the passenger and back over the same distance), sets
`next_free_time`, bumps `total_trips`, records `wait_end` / `travel_time` on the
request, and returns the total travel time.  Returns the updated vehicle, the
updated request and the returned value. -/
def Lert.assign (l : Lert) (current_time : ℚ) (r : Request) : Lert × Request × ℚ :=
  let pickup_distance := r.distance
  let travel_to_passenger_time := pickup_distance / l.speed
  let travel_with_passenger_time := pickup_distance / l.speed
  let total_travel_time := travel_to_passenger_time + travel_with_passenger_time
  ({ l with status := .busy,
            next_free_time := current_time + total_travel_time,
            total_trips := l.total_trips + 1 },
   { r with wait_end := some current_time, travel_time := some total_travel_time },
   total_travel_time)

/-- Event tag: the strings 'arrival' and 'complete' of the Python tuples.  In
Python's lexicographic tuple order `'arrival' < 'complete'`; `rank` records
that string order. -/
inductive EType where
  | arrival
  | complete
deriving DecidableEq, Repr

/-- Numeric image of the string order `'arrival' < 'complete'`. -/
def EType.rank : EType → ℕ
  | .arrival => 0
  | .complete => 1

/-- One heap entry `(event_time, event_type, payload)`; the payload is `None`
for arrivals and a `Request` reference (here: its index) for completions. -/
structure Event where
  time : ℚ
  etype : EType
  payload : Option ℕ
deriving DecidableEq, Repr

/-- `heapq.heappush`: the heap is modelled as the multiset of its entries, in
insertion order. -/
def heappush (q : List Event) (e : Event) : List Event := q ++ [e]

/-- Strict comparison on the `(event_time, event_type)` prefix of the Python
tuples — the part of the tuple order that never touches the payload. -/
def Event.keyLtb (a b : Event) : Bool :=
  decide (a.time < b.time) || (decide (a.time = b.time) && decide (a.etype.rank < b.etype.rank))

/-- `heapq.heappop`: removes a minimal entry.  We take the leftmost entry that
is minimal for `(event_time, event_type)`; when two entries tie on that whole
key the Python implementation would compare the payloads themselves (see C1). -/
def popMin : List Event → Option (Event × List Event)
  | [] => none
  | e :: es =>
    match popMin es with
    | none => some (e, [])
    | some (m, rest) => if Event.keyLtb m e then some (m, e :: rest) else some (e, es)

/-- The module-level globals of `sim3.py` (`METRO_RADIUS`, `REQUEST_RATE`,
`LERT_SPEED_KMH`, `LERT_SPEED`, `POISSON_REQUESTS`).  They live at process
scope, outside any `MetroSimulation` instance. -/
structure Config where
  METRO_RADIUS : ℚ
  REQUEST_RATE : ℚ
  LERT_SPEED_KMH : ℚ
  LERT_SPEED : ℚ
  POISSON_REQUESTS : Bool
deriving DecidableEq, Repr

/-- The initial values of the globals at module load. -/
def defaultConfig : Config :=
  { METRO_RADIUS := 3, REQUEST_RATE := 100 / 60, LERT_SPEED_KMH := 25,
    LERT_SPEED := 25 / 3600, POISSON_REQUESTS := true }

/-- `INITIAL_LERT_COUNT`. -/
def INITIAL_LERT_COUNT : ℕ := 25

/-- The mutable fields of a `MetroSimulation` instance. -/
structure SimState where
  current_time : ℚ
  event_queue : List Event
  requests : List Request
  completed_requests : ℕ
  total_wait_time : ℚ
  total_travel_time : ℚ
  lerts : List Lert
deriving DecidableEq, Repr

/-- The inter-arrival gap drawn by `schedule_next_request_arrival`: for Poisson
arrivals `np.random.exponential (1/rate)` — embedded as `(1/rate) * u` for a
standard exponential draw `u ≥ 0` — and `1/rate` otherwise. -/
def interArrivalGap (g : Config) (u : ℚ) : ℚ :=
  if g.POISSON_REQUESTS then (1 / g.REQUEST_RATE) * u else 1 / g.REQUEST_RATE

/-- `MetroSimulation.schedule_next_request_arrival(now)`: pushes an
`(now + gap, 'arrival', None)` entry onto the event queue.  Reads the
process-global `REQUEST_RATE` from `g`, not from the instance. -/
def schedule_next_request_arrival (g : Config) (s : SimState) (now u : ℚ) : SimState :=
  { s with event_queue :=
      heappush s.event_queue { time := now + interArrivalGap g u, etype := .arrival, payload := none } }

/-- `MetroSimulation.__init__`: time 0, empty queue, no requests, zero stats,
`INITIAL_LERT_COUNT` vehicles at global speed, then one scheduled arrival. -/
def initState (g : Config) (u : ℚ) : SimState :=
  let s : SimState :=
    { current_time := 0, event_queue := [], requests := [],
      completed_requests := 0, total_wait_time := 0, total_travel_time := 0,
      lerts := (List.range INITIAL_LERT_COUNT).map (fun i => Lert.create i g.LERT_SPEED) }
  schedule_next_request_arrival g s s.current_time u

/-- `MetroSimulation.handle_arrival_event()`: materializes a request from the
drawn direction and distance, appends it, and schedules the next arrival. -/
def handle_arrival_event (g : Config) (s : SimState) (dir : Direction) (dist u : ℚ) : SimState :=
  let req := Request.create s.current_time dist dir
  let s1 := { s with requests := s.requests ++ [req] }
  schedule_next_request_arrival g s1 s1.current_time u

/-- `MetroSimulation.find_available_lert()`: index of the first vehicle with
`next_free_time ≤ current_time`, or `none`. -/
def find_available_lert (s : SimState) : Option ℕ :=
  s.lerts.findIdx? (fun l => decide (l.next_free_time ≤ s.current_time))

/-- The Pending requests paired with their index in `self.requests`, sorted by
creation time.  Python's `list.sort` is stable, as is `List.mergeSort`. -/
def sortedUnassigned (s : SimState) : List (ℕ × Request) :=
  (s.requests.enum.filter (fun p => !p.2.assigned)).mergeSort
    (fun a b => decide (a.2.time ≤ b.2.time))

/-- Body of the `for request in unassigned_requests` loop of
`sim3.MetroSimulation.handle_requests`: assign the first available vehicle and
schedule the completion event, or `break` out of the loop when none is idle. -/
def handle_requests_loop : List (ℕ × Request) → SimState → SimState
  | [], s => s
  | (i, _) :: rest, s =>
    match find_available_lert s with
    | some j =>
      match s.requests.get? i, s.lerts.get? j with
      | some r, some l =>
        let r1 := { r with assigned := true }
        let a := l.assign s.current_time r1
        let s1 := { s with
          requests := s.requests.set i a.2.1,
          lerts := s.lerts.set j a.1,
          event_queue := heappush s.event_queue
            { time := s.current_time + a.2.2, etype := .complete, payload := some i } }
        handle_requests_loop rest s1
      | _, _ => handle_requests_loop rest s
    | none => s

/-- Same loop body in `sim4.MetroSimulation.handle_requests`: identical except
that a request with no idle vehicle is simply skipped (no `break`). -/
def handle_requests_loop4 : List (ℕ × Request) → SimState → SimState
  | [], s => s
  | (i, _) :: rest, s =>
    match find_available_lert s with
    | some j =>
      match s.requests.get? i, s.lerts.get? j with
      | some r, some l =>
        let r1 := { r with assigned := true }
        let a := l.assign s.current_time r1
        let s1 := { s with
          requests := s.requests.set i a.2.1,
          lerts := s.lerts.set j a.1,
          event_queue := heappush s.event_queue
            { time := s.current_time + a.2.2, etype := .complete, payload := some i } }
        handle_requests_loop4 rest s1
      | _, _ => handle_requests_loop4 rest s
    | none => handle_requests_loop4 rest s

/-- `sim3.MetroSimulation.handle_requests()`. -/
def handle_requests (s : SimState) : SimState :=
  handle_requests_loop (sortedUnassigned s) s

/-- `sim4.MetroSimulation.handle_requests()`. -/
def handle_requests4 (s : SimState) : SimState :=
  handle_requests_loop4 (sortedUnassigned s) s

/-- `MetroSimulation.handle_complete_event(request)`: bumps the completed
counter and accumulates the request's wait and travel times. -/
def handle_complete_event (s : SimState) (payload : Option ℕ) : SimState :=
  match payload with
  | none => s
  | some i =>
    match s.requests.get? i with
    | none => s
    | some r =>
      { s with completed_requests := s.completed_requests + 1,
               total_wait_time := s.total_wait_time + (r.wait_end.getD 0 - r.wait_start),
               total_travel_time := s.total_travel_time + r.travel_time.getD 0 }

/-- The random draws one `run_step` may consume when it processes an arrival. -/
structure Draws where
  dir : Direction
  dist : ℚ
  gap_u : ℚ
deriving DecidableEq, Repr

/-- `MetroSimulation.run_step()`: pop the chronologically next event, advance
`current_time` to its timestamp, process it, then run a dispatch pass. -/
def run_step (g : Config) (s : SimState) (d : Draws) : SimState :=
  match popMin s.event_queue with
  | none => s
  | some (e, rest) =>
    let s1 := { s with event_queue := rest, current_time := e.time }
    let s2 :=
      match e.etype with
      | .arrival => handle_arrival_event g s1 d.dir d.dist d.gap_u
      | .complete => handle_complete_event s1 e.payload
    handle_requests s2

/-- `MetroSimulation.add_lert()`: `new_id = len(self.lerts)`, then a new vehicle
at `self.lerts[0].speed` is appended.  On an empty fleet `self.lerts[0]` raises
`IndexError`, modelled as `none`; otherwise the new state and the id printed by
the method are returned. -/
def add_lert (s : SimState) : Option (SimState × ℕ) :=
  let new_id := s.lerts.length
  match s.lerts.get? 0 with
  | none => none
  | some l0 =>
    some ({ s with lerts := s.lerts ++ [Lert.create new_id l0.speed] }, new_id)

/-- Whether a vehicle is idle at the given time (`next_free_time ≤ current_time`). -/
def idleAt (now : ℚ) (l : Lert) : Bool :=
  decide (l.next_free_time ≤ now)

/-- `MetroSimulation.remove_lert()`: collect the idle vehicles; if any, remove
the first of them from the fleet (Python's `list.remove` deletes the first
occurrence of that object, which is the first idle vehicle) and report its id;
otherwise leave the fleet alone and report nothing. -/
def remove_lert (s : SimState) : SimState × Option ℕ :=
  let idle_lerts := s.lerts.filter (idleAt s.current_time)
  match idle_lerts.head? with
  | some l => ({ s with lerts := s.lerts.eraseP (idleAt s.current_time) }, some l.id)
  | none => (s, none)

/-- `MetroSimulation.set_request_rate(new_rate_per_minute)`: overwrites the
process-global `REQUEST_RATE` with `new_rate_per_minute / 60`, with no
validation and no per-instance state touched. -/
def set_request_rate (g : Config) (new_rate_per_minute : ℚ) : Config :=
  { g with REQUEST_RATE := new_rate_per_minute / 60 }

/-- `MetroSimulation.set_speed(new_speed_kmh)`: overwrites the process-global
`LERT_SPEED_KMH` / `LERT_SPEED` and sets every vehicle of *this* instance to the
new speed, with no validation. -/
def set_speed (g : Config) (s : SimState) (new_speed_kmh : ℚ) : Config × SimState :=
  let g1 := { g with LERT_SPEED_KMH := new_speed_kmh, LERT_SPEED := new_speed_kmh / 3600 }
  (g1, { s with lerts := s.lerts.map (fun l => { l with speed := g1.LERT_SPEED }) })

/-! ## Claim C1: event-queue tie-breaking -/

/-- A queue in which a completion event was scheduled first and an arrival
second, both at timestamp 5. -/
def c1Queue : List Event :=
  heappush (heappush [] { time := 5, etype := .complete, payload := some 0 })
    { time := 5, etype := .arrival, payload := none }

/-- C1 (code bug): the heap entries of `sim3.py` are `(time, type, payload)`
tuples, with no sequence counter.  At the tie timestamp 5 the later-scheduled
`'arrival'` entry is popped before the earlier-scheduled `'complete'` entry,
because `'arrival' < 'complete'` as strings — the pop order at equal timestamps
is not FIFO, and two `'complete'` entries tied on time would fall through to
comparing their `Request` payloads (a `TypeError` in the source). -/
theorem C1_tie_broken_by_event_type :
    popMin c1Queue =
      some ({ time := 5, etype := .arrival, payload := none },
        [{ time := 5, etype := .complete, payload := some 0 }]) := rfl

/-! ## Claim C2: setter validation -/

/-- A one-vehicle instance state used to exercise the setters. -/
def c2State : SimState :=
  { current_time := 0, event_queue := [], requests := [],
    completed_requests := 0, total_wait_time := 0, total_travel_time := 0,
    lerts := [Lert.create 0 (25 / 3600)] }

/-- C2 (counterexample): `set_request_rate(-60)` and `set_speed(-36)` are
non-positive inputs, yet both go through: the global rate becomes −1 requests
per second and the vehicle's speed becomes −1/100 — the configuration is
mutated and no `InvalidRate` / `InvalidSpeed` rejection exists. -/
theorem C2_nonpositive_inputs_accepted :
    (set_request_rate defaultConfig (-60)).REQUEST_RATE = -1
    ∧ (set_request_rate defaultConfig (-60)).REQUEST_RATE ≠ defaultConfig.REQUEST_RATE
    ∧ (set_speed defaultConfig c2State (-36)).1.LERT_SPEED = -1 / 100
    ∧ (set_speed defaultConfig c2State (-36)).2.lerts.map Lert.speed = [-1 / 100] := by
  refine ⟨?_, ?_, ?_, ?_⟩ <;>
    simp [set_request_rate, set_speed, defaultConfig, c2State, Lert.create] <;> norm_num

/-- C2 (amended): the setters perform no validation at all.  For every
argument, positive or not, `set_request_rate r` overwrites the global rate with
`r / 60` (leaving the speed globals alone), and `set_speed v` overwrites the
speed globals with `v` / `v / 3600` and sets every vehicle of the instance to
`v / 3600`, preserving the fleet size. -/
theorem C2_setters_never_reject (g : Config) (s : SimState) (r v : ℚ) :
    (set_request_rate g r).REQUEST_RATE = r / 60
    ∧ (set_request_rate g r).LERT_SPEED = g.LERT_SPEED
    ∧ (set_speed g s v).1.LERT_SPEED_KMH = v
    ∧ (set_speed g s v).1.LERT_SPEED = v / 3600
    ∧ (∀ l ∈ (set_speed g s v).2.lerts, l.speed = v / 3600)
    ∧ (set_speed g s v).2.lerts.length = s.lerts.length := by
  refine ⟨rfl, rfl, rfl, rfl, ?_, ?_⟩
  · intro l hl
    simp only [set_speed, List.mem_map] at hl
    obtain ⟨l0, -, rfl⟩ := hl
    rfl
  · simp [set_speed]

/-- Closed instance of `C2_setters_never_reject`. -/
theorem C2_setters_never_reject_witness :
    (set_request_rate defaultConfig 120).REQUEST_RATE = 120 / 60
    ∧ (set_speed defaultConfig c2State 50).2.lerts.length = c2State.lerts.length :=
  ⟨(C2_setters_never_reject defaultConfig c2State 120 50).1,
   (C2_setters_never_reject defaultConfig c2State 120 50).2.2.2.2.2⟩

/-! ## Claim C4: add_lert on an empty fleet -/

/-- The fleet emptied by 25 successive `remove_lert` calls from the initial
state (all vehicles start idle, so each call removes one). -/
def c4Empty : SimState :=
  (List.range INITIAL_LERT_COUNT).foldl (fun s _ => (remove_lert s).1) (initState defaultConfig 0)

/-- C4 (counterexample): the empty fleet is reachable by removals from the
initial state, and there `add_lert` does not succeed: `self.lerts[0].speed`
raises `IndexError` (modelled as `none`), so `add_vehicle` does not always
succeed. -/
theorem C4_add_fails_on_empty_fleet :
    c4Empty.lerts = [] ∧ add_lert c4Empty = none := ⟨rfl, rfl⟩

/-- C4 (amended): on every state whose fleet is non-empty, `add_lert` succeeds,
appending one new vehicle whose id is the current fleet size and whose speed is
copied from the first vehicle; the new vehicle is created idle
(`next_free_time = 0`, status `'idle'`) and the fleet grows by one.  On an
empty fleet the method instead raises `IndexError`. -/
theorem C4_add_succeeds_on_nonempty_fleet (s : SimState) (l0 : Lert)
    (h : s.lerts.head? = some l0) :
    add_lert s =
      some ({ s with lerts := s.lerts ++ [Lert.create s.lerts.length l0.speed] },
        s.lerts.length)
    ∧ (Lert.create s.lerts.length l0.speed).next_free_time = 0
    ∧ (Lert.create s.lerts.length l0.speed).status = .idle
    ∧ (s.lerts ++ [Lert.create s.lerts.length l0.speed]).length = s.lerts.length + 1 := by
  refine ⟨?_, rfl, rfl, by simp⟩
  have hg : s.lerts[0]? = some l0 := by
    rw [← List.get?_eq_getElem?, List.get?_zero]; exact h
  simp [add_lert, hg]

/-- Closed instance of `C4_add_succeeds_on_nonempty_fleet` at the one-vehicle
state `c2State`. -/
theorem C4_add_succeeds_witness :
    c2State.lerts.head? = some (Lert.create 0 (25 / 3600))
    ∧ add_lert c2State =
        some ({ c2State with
          lerts := c2State.lerts ++ [Lert.create c2State.lerts.length (Lert.create 0 (25 / 3600)).speed] },
          c2State.lerts.length) :=
  ⟨rfl, (C4_add_succeeds_on_nonempty_fleet c2State (Lert.create 0 (25 / 3600)) rfl).1⟩

/-! ## Claim C5: id uniqueness and recycling -/

/-- The vehicle ids after one `remove_lert` (removing idle vehicle 0) followed
by one `add_lert` from the initial 25-vehicle state. -/
def c5Ids : List ℕ :=
  ((add_lert (remove_lert (initState defaultConfig 0)).1).map
    (fun p => p.1.lerts.map Lert.id)).getD []

/-- C5 (counterexample): after removing vehicle 0 the fleet holds ids 1..24;
`add_lert` then assigns `new_id = len(lerts) = 24`, which is already in use.
The resulting id list `[1, …, 24, 24]` has a duplicate, so ids are neither
pairwise distinct nor non-recycled. -/
theorem C5_ids_recycled_after_removal :
    c5Ids = (List.range 24).map (fun i => i + 1) ++ [24] ∧ ¬ c5Ids.Nodup := by
  exact ⟨by decide, by decide⟩

/-- C5 (amended): as long as no vehicle has ever been removed, every vehicle's
id equals its position in the fleet, so the ids are pairwise distinct, and
`add_lert` preserves that invariant while returning the fresh id
`len(lerts)`.  A removal breaks the invariant and a later `add_lert` can then
re-assign an id that is still in use (as the counterexample shows). -/
theorem C5_ids_distinct_without_removal (s : SimState)
    (h : ∀ i (hi : i < s.lerts.length), s.lerts[i].id = i) :
    (s.lerts.map Lert.id).Nodup
    ∧ ∀ t n, add_lert s = some (t, n) →
        n = s.lerts.length ∧ ∀ i (hi : i < t.lerts.length), t.lerts[i].id = i := by
  constructor
  · have hmap : s.lerts.map Lert.id = List.range s.lerts.length := by
      refine List.ext_get (by simp) ?_
      intro i h1 h2
      simp only [List.get_map, List.get_range]
      exact h i (by simpa using h1)
    rw [hmap]
    exact List.nodup_range _
  · intro t n hadd
    simp only [add_lert] at hadd
    rcases hget : s.lerts.get? 0 with _ | l0
    · rw [hget] at hadd; exact absurd hadd (by simp)
    · rw [hget] at hadd
      simp only [Option.some.injEq, Prod.mk.injEq] at hadd
      obtain ⟨ht, hn⟩ := hadd
      refine ⟨hn.symm, ?_⟩
      subst ht
      intro i hi
      simp only [List.length_append, List.length_cons, List.length_nil] at hi
      rcases lt_or_ge i s.lerts.length with hlt | hge
      · rw [List.getElem_append_left hlt]
        exact h i hlt
      · have hieq : i = s.lerts.length := by omega
        subst hieq
        simp [List.getElem_concat_length, Lert.create]

/-- Closed instance of `C5_ids_distinct_without_removal` at the one-vehicle
state `c2State`. -/
theorem C5_ids_distinct_witness : (c2State.lerts.map Lert.id).Nodup :=
  (C5_ids_distinct_without_removal c2State (by decide)).1

/-! ## Claim C3: configuration ownership -/

/-- C3 (counterexample): `c2State` plays instance B, untouched throughout.
Before any setter call B's next Poisson arrival (standard draw 1) would be
scheduled at gap 3/5; after `set_request_rate(200)` is issued through some
other instance A — which only rewrites the process-global `REQUEST_RATE` —
the very same call on the very same state B schedules the arrival at gap 3/10.
B's subsequent behaviour changed although only A was reconfigured. -/
theorem C3_instances_share_global_rate :
    (schedule_next_request_arrival defaultConfig c2State 0 1).event_queue.map Event.time = [3 / 5]
    ∧ (schedule_next_request_arrival (set_request_rate defaultConfig 200) c2State 0 1).event_queue.map
        Event.time = [3 / 10]
    ∧ ((3 : ℚ) / 10) ≠ 3 / 5 := by
  refine ⟨?_, ?_, by norm_num⟩ <;>
    simp [schedule_next_request_arrival, heappush, interArrivalGap, set_request_rate,
      defaultConfig, c2State] <;> norm_num

/-- C3 (amended): the rate configuration is process-global, not owned by the
instance.  `set_request_rate` has no access to any instance state and rewrites
the shared global to `r / 60`; the arrival-scheduling path of *every* instance
draws its gap from that shared global, so after a call through one instance,
any instance `sB` schedules its next arrival with gap `(60 / r) * u`. -/
theorem C3_rate_is_process_global (g : Config) (sB : SimState) (r u now : ℚ)
    (hp : g.POISSON_REQUESTS = true) :
    (set_request_rate g r).REQUEST_RATE = r / 60
    ∧ interArrivalGap (set_request_rate g r) u = (60 / r) * u
    ∧ schedule_next_request_arrival (set_request_rate g r) sB now u =
        { sB with event_queue :=
            heappush sB.event_queue (Event.mk (now + (60 / r) * u) .arrival none) } := by
  have hgap : interArrivalGap (set_request_rate g r) u = (60 / r) * u := by
    simp [interArrivalGap, set_request_rate, hp, one_div_div]
  exact ⟨rfl, hgap, by simp [schedule_next_request_arrival, hgap]⟩

/-- Closed instance of `C3_rate_is_process_global`. -/
theorem C3_rate_is_process_global_witness :
    defaultConfig.POISSON_REQUESTS = true
    ∧ interArrivalGap (set_request_rate defaultConfig 200) 1 = (60 / 200) * 1 :=
  ⟨rfl, (C3_rate_is_process_global defaultConfig c2State 200 1 0 rfl).2.1⟩

/-! ## Claim C6: service duration and completion scheduling -/

/-- Scenario A of the spec: one vehicle at speed 25/3600, one pending request
at pickup distance 3/2 created at the current time `t`. -/
def scenarioA (t : ℚ) : SimState :=
  { current_time := t, event_queue := [],
    requests := [Request.create t (3 / 2) .to_station],
    completed_requests := 0, total_wait_time := 0, total_travel_time := 0,
    lerts := [Lert.create 0 (25 / 3600)] }

/-- C6: `Lert.assign` produces service duration `2 × pickup_distance / speed`,
sets `next_free_time = current_time + duration` and bumps the trip counter; at
speed 25/3600 and distance 3/2 the duration is exactly 432, and the dispatch
pass on Scenario A schedules the completion event at `t + 432` while setting
the vehicle free at `t + 432` with one trip counted. -/
theorem C6_service_duration (t : ℚ) (l : Lert) (r : Request) (h : (0 : ℚ) ≤ t) :
    (l.assign t r).2.2 = 2 * r.distance / l.speed
    ∧ (l.assign t r).1.next_free_time = t + 2 * r.distance / l.speed
    ∧ (l.assign t r).1.total_trips = l.total_trips + 1
    ∧ (2 * (3 / 2) / (25 / 3600) : ℚ) = 432
    ∧ (handle_requests (scenarioA t)).event_queue =
        [{ time := t + 432, etype := .complete, payload := some 0 }]
    ∧ (handle_requests (scenarioA t)).lerts.map Lert.next_free_time = [t + 432]
    ∧ (handle_requests (scenarioA t)).lerts.map Lert.total_trips = [1] := by
  have hdur : ∀ d sp : ℚ, d / sp + d / sp = 2 * d / sp := by intro d sp; ring
  have hfind : find_available_lert (scenarioA t) = some 0 := by
    simp [find_available_lert, scenarioA, List.findIdx?, Lert.create, h]
  have hsorted : sortedUnassigned (scenarioA t) = [(0, Request.create t (3 / 2) .to_station)] := by
    simp [sortedUnassigned, scenarioA, Request.create, List.enum]
  refine ⟨hdur r.distance l.speed, ?_, rfl, by norm_num, ?_⟩
  · simp [Lert.assign, hdur]
  · have hrun : handle_requests (scenarioA t) =
        handle_requests_loop [(0, Request.create t (3 / 2) .to_station)] (scenarioA t) := by
      rw [handle_requests, hsorted]
    rw [hrun]
    simp only [handle_requests_loop, hfind]
    norm_num [scenarioA, Request.create, Lert.assign, Lert.create, heappush]

/-- Closed instance of `C6_service_duration` at arrival time 0. -/
theorem C6_service_duration_witness :
    (0 : ℚ) ≤ 0
    ∧ (handle_requests (scenarioA 0)).event_queue =
        [{ time := (0 : ℚ) + 432, etype := .complete, payload := some 0 }] :=
  ⟨by decide,
   (C6_service_duration 0 (Lert.create 0 1) (Request.create 0 1 .to_station)
     (by decide)).2.2.2.2.1⟩

/-! ## Claim C10: early-exit dispatch vs full-scan dispatch -/

/-- When no vehicle is idle, the full-scan loop of `sim4` changes nothing: a
failed lookup assigns nothing, so the fleet state — and hence every later
lookup in the same pass — stays as it is. -/
lemma handle_requests_loop4_of_no_lert (l : List (ℕ × Request)) (s : SimState)
    (h : find_available_lert s = none) : handle_requests_loop4 l s = s := by
  induction l with
  | nil => rfl
  | cons p rest ih =>
    obtain ⟨i, r⟩ := p
    simp only [handle_requests_loop4, h]
    exact ih

/-- The two loop bodies agree on every input. -/
lemma handle_requests_loop_eq_loop4 (l : List (ℕ × Request)) :
    ∀ s : SimState, handle_requests_loop l s = handle_requests_loop4 l s := by
  induction l with
  | nil => intro s; rfl
  | cons p rest ih =>
    intro s
    obtain ⟨i, r⟩ := p
    simp only [handle_requests_loop, handle_requests_loop4]
    rcases hf : find_available_lert s with _ | j
    · exact (handle_requests_loop4_of_no_lert rest s hf).symm
    · rcases hr : s.requests.get? i with _ | r1
      all_goals rcases hl : s.lerts.get? j with _ | l1
      all_goals simp only [hr, hl]
      all_goals exact ih _

/-- C10: the early-exit dispatch pass of `sim3.handle_requests` (which stops
scanning at the first request with no idle vehicle) and the full-scan pass of
`sim4.handle_requests` produce identical states: the same assignments, the same
vehicle updates, and the same scheduled completion events, from every starting
state. -/
theorem C10_early_exit_equivalent (s : SimState) : handle_requests s = handle_requests4 s :=
  handle_requests_loop_eq_loop4 (sortedUnassigned s) s

/-! ## Claim C9: remove_lert removes the first idle vehicle -/

/-- If the first index satisfying `p` is `j`, then the head of the filtered
list is the element at `j` and `eraseP` deletes exactly position `j`. -/
lemma filter_head_eraseP_of_first {α : Type} (p : α → Bool) :
    ∀ (xs : List α) (j : ℕ) (hj : j < xs.length), p xs[j] = true →
      (∀ k (hk : k < xs.length), k < j → p xs[k] = false) →
      (xs.filter p).head? = some xs[j] ∧ xs.eraseP p = xs.eraseIdx j := by
  intro xs
  induction xs with
  | nil => intro j hj; exact absurd hj (by simp)
  | cons a as ih =>
    intro j hj hpj hfirst
    cases j with
    | zero =>
      simp only [List.getElem_cons_zero] at hpj
      simp [List.filter_cons, List.eraseP_cons, hpj]
    | succ j0 =>
      have hpa : p a = false := by
        have := hfirst 0 (by simp) (Nat.succ_pos j0)
        simpa using this
      have hj0 : j0 < as.length := by simpa using hj
      have hpj0 : p as[j0] = true := by simpa using hpj
      have hfirst0 : ∀ k (hk : k < as.length), k < j0 → p as[k] = false := by
        intro k hk hkj
        have := hfirst (k + 1) (by simpa using Nat.succ_lt_succ hk) (Nat.succ_lt_succ hkj)
        simpa using this
      obtain ⟨h1, h2⟩ := ih j0 hj0 hpj0 hfirst0
      refine ⟨?_, ?_⟩
      · simpa [List.filter_cons, hpa] using h1
      · simp [List.eraseP_cons, hpa, h2, List.eraseIdx]

/-- C9: `remove_lert` removes the first vehicle, in registration order, that is
idle at `current_time` and reports its id; when every vehicle is busy it
reports nothing and leaves the state — in particular the fleet — completely
unchanged, so a busy vehicle is never removed. -/
theorem C9_remove_first_idle (s : SimState) :
    ((∀ l ∈ s.lerts, idleAt s.current_time l = false) → remove_lert s = (s, none))
    ∧ ∀ j (hj : j < s.lerts.length), idleAt s.current_time s.lerts[j] = true →
        (∀ k (hk : k < s.lerts.length), k < j → idleAt s.current_time s.lerts[k] = false) →
        (remove_lert s).2 = some s.lerts[j].id
        ∧ (remove_lert s).1.lerts = s.lerts.eraseIdx j
        ∧ (remove_lert s).1.current_time = s.current_time
        ∧ (remove_lert s).1.lerts.length + 1 = s.lerts.length := by
  constructor
  · intro hbusy
    have hfilter : s.lerts.filter (idleAt s.current_time) = [] :=
      List.filter_eq_nil.mpr (fun l hl => by simp [hbusy l hl])
    simp [remove_lert, hfilter]
  · intro j hj hpj hfirst
    obtain ⟨h1, h2⟩ := filter_head_eraseP_of_first (idleAt s.current_time) s.lerts j hj hpj hfirst
    have hlen : (s.lerts.eraseIdx j).length + 1 = s.lerts.length := by
      rw [List.length_eraseIdx_of_lt hj]
      omega
    simp [remove_lert, h1, h2, hlen]

/-- A two-vehicle state: vehicle 3 is busy until time 10, vehicle 7 is idle. -/
def c9Mixed : SimState :=
  { current_time := 0, event_queue := [], requests := [],
    completed_requests := 0, total_wait_time := 0, total_travel_time := 0,
    lerts := [{ id := 3, speed := 1, status := .busy, next_free_time := 10, total_trips := 0 },
              { id := 7, speed := 1, status := .idle, next_free_time := 0, total_trips := 0 }] }

/-- A state whose only vehicle is busy until time 10. -/
def c9Busy : SimState :=
  { current_time := 0, event_queue := [], requests := [],
    completed_requests := 0, total_wait_time := 0, total_travel_time := 0,
    lerts := [{ id := 3, speed := 1, status := .busy, next_free_time := 10, total_trips := 0 }] }

/-- Closed instance of `C9_remove_first_idle`: with all vehicles busy nothing
is removed, and in the mixed fleet the busy vehicle 3 is skipped and the first
idle vehicle 7 is the one removed. -/
theorem C9_remove_first_idle_witness :
    remove_lert c9Busy = (c9Busy, none)
    ∧ (remove_lert c9Mixed).2 = some 7
    ∧ (remove_lert c9Mixed).1.lerts = c9Mixed.lerts.eraseIdx 1 :=
  ⟨(C9_remove_first_idle c9Busy).1 (by decide),
   ((C9_remove_first_idle c9Mixed).2 1 (by decide) (by decide) (by decide)).1,
   ((C9_remove_first_idle c9Mixed).2 1 (by decide) (by decide) (by decide)).2.1⟩

/-! ## Claim C8: completed-request invariants -/

/-- One idle vehicle and one pending request at pickup distance 0 — distance 0
is in the support of `np.random.uniform(0, METRO_RADIUS)`. -/
def c8Start : SimState :=
  { current_time := 0, event_queue := [],
    requests := [Request.create 0 0 .to_station],
    completed_requests := 0, total_wait_time := 0, total_travel_time := 0,
    lerts := [Lert.create 0 (25 / 3600)] }

/-- The dispatch loop never touches the completed-requests counter. -/
lemma handle_requests_loop_completed (l : List (ℕ × Request)) :
    ∀ s : SimState, (handle_requests_loop l s).completed_requests = s.completed_requests := by
  induction l with
  | nil => intro s; rfl
  | cons p rest ih =>
    intro s
    obtain ⟨i, r⟩ := p
    simp only [handle_requests_loop]
    rcases hf : find_available_lert s with _ | j
    · rfl
    · rcases hr : s.requests.get? i with _ | r1
      all_goals rcases hl : s.lerts.get? j with _ | l1
      all_goals simp only [hr, hl]
      all_goals exact ih _

/-- Neither does `handle_requests`. -/
lemma handle_requests_completed (s : SimState) :
    (handle_requests s).completed_requests = s.completed_requests :=
  handle_requests_loop_completed (sortedUnassigned s) s

/-- The state reached by dispatching the distance-0 request of `c8Start`. -/
def c8Done : SimState :=
  { current_time := 0,
    event_queue := [{ time := 0, etype := .complete, payload := some 0 }],
    requests := [{ time := 0, distance := 0, direction := .to_station, assigned := true,
                   wait_start := 0, wait_end := some 0, travel_time := some 0 }],
    completed_requests := 0, total_wait_time := 0, total_travel_time := 0,
    lerts := [{ id := 0, speed := 25 / 3600, status := .busy, next_free_time := 0,
                total_trips := 1 }] }

/-- C8 (counterexample): dispatching the distance-0 request records
`travel_time = 0`, its completion event fires immediately and is counted, so a
request reaches the Completed state with `service_duration = 0`, refuting
`service_duration > 0`. -/
theorem C8_zero_duration_completion :
    (handle_requests c8Start).requests.map Request.travel_time = [some 0]
    ∧ (handle_requests c8Start).requests.map Request.assigned = [true]
    ∧ (run_step defaultConfig (handle_requests c8Start)
        (Draws.mk .to_station 0 0)).completed_requests = 1
    ∧ ¬ (0 : ℚ) < 0 := by
  have hfind : find_available_lert c8Start = some 0 := rfl
  have hsorted : sortedUnassigned c8Start = [(0, Request.create 0 0 .to_station)] := by
    simp [sortedUnassigned, c8Start, Request.create, List.enum]
  have hrun : handle_requests c8Start = c8Done := by
    rw [handle_requests, hsorted]
    simp only [handle_requests_loop, hfind]
    norm_num [c8Start, c8Done, Request.create, Lert.assign, Lert.create, heappush]
  have hpop : popMin c8Done.event_queue =
      some ({ time := 0, etype := .complete, payload := some 0 }, []) := rfl
  refine ⟨?_, ?_, ?_, by norm_num⟩
  · rw [hrun]; rfl
  · rw [hrun]; rfl
  · rw [hrun]
    simp only [run_step, hpop]
    rw [handle_requests_completed]
    rfl

/-- The requests of a state keep any `assigned = true` flag across an arbitrary
dispatch pass: the loop only ever writes records whose `assigned` field is
`true`. -/
lemma handle_requests_loop_assigned_monotone (l : List (ℕ × Request)) :
    ∀ (s : SimState) (i : ℕ) (ri : Request), s.requests.get? i = some ri →
      ri.assigned = true →
      ∃ ri2, (handle_requests_loop l s).requests.get? i = some ri2 ∧ ri2.assigned = true := by
  induction l with
  | nil => intro s i ri h ha; exact ⟨ri, h, ha⟩
  | cons p rest ih =>
    intro s i ri h ha
    obtain ⟨i1, r1⟩ := p
    simp only [handle_requests_loop]
    rcases hf : find_available_lert s with _ | j
    · exact ⟨ri, h, ha⟩
    · rcases hr : s.requests.get? i1 with _ | r2
      all_goals rcases hl : s.lerts.get? j with _ | l2
      all_goals simp only [hr, hl]
      · exact ih s i ri h ha
      · exact ih s i ri h ha
      · exact ih s i ri h ha
      · rcases eq_or_ne i1 i with heq | hne
        · subst heq
          refine ih _ i1 ((l2.assign s.current_time { r2 with assigned := true }).2.1) ?_ rfl
          have hset : (s.requests.set i1
              ((l2.assign s.current_time { r2 with assigned := true }).2.1)).get? i1 =
              (fun _ => (l2.assign s.current_time { r2 with assigned := true }).2.1) <$>
                s.requests.get? i1 :=
            List.get?_set_eq _ _ _
          rw [hset, hr]
          rfl
        · refine ih _ i ri ?_ ha
          have hset : (s.requests.set i1
              ((l2.assign s.current_time { r2 with assigned := true }).2.1)).get? i =
              s.requests.get? i := List.get?_set_ne _ _ hne
          rw [hset]
          exact h

/-- Completion handling never changes the request list. -/
lemma handle_complete_event_requests (s : SimState) (p : Option ℕ) :
    (handle_complete_event s p).requests = s.requests := by
  rcases p with _ | k
  · rfl
  · simp only [handle_complete_event]
    rcases s.requests.get? k with _ | rk <;> rfl

/-- Completion handling never changes the event queue. -/
lemma handle_complete_event_queue (s : SimState) (p : Option ℕ) :
    (handle_complete_event s p).event_queue = s.event_queue := by
  rcases p with _ | k
  · rfl
  · simp only [handle_complete_event]
    rcases s.requests.get? k with _ | rk <;> rfl

/-- Completion handling never changes the clock. -/
lemma handle_complete_event_current_time (s : SimState) (p : Option ℕ) :
    (handle_complete_event s p).current_time = s.current_time := by
  rcases p with _ | k
  · rfl
  · simp only [handle_complete_event]
    rcases s.requests.get? k with _ | rk <;> rfl

/-- Completion handling never changes the fleet. -/
lemma handle_complete_event_lerts (s : SimState) (p : Option ℕ) :
    (handle_complete_event s p).lerts = s.lerts := by
  rcases p with _ | k
  · rfl
  · simp only [handle_complete_event]
    rcases s.requests.get? k with _ | rk <;> rfl

/-- An `assigned = true` flag survives one full `run_step`: popping does not
touch the request list, an arrival only appends, a completion only updates the
aggregate counters, and the dispatch pass is covered by the loop lemma. -/
lemma run_step_assigned_monotone (g : Config) (s : SimState) (d : Draws) (i : ℕ) (ri : Request)
    (h : s.requests.get? i = some ri) (ha : ri.assigned = true) :
    ∃ ri2, (run_step g s d).requests.get? i = some ri2 ∧ ri2.assigned = true := by
  have hlen : i < s.requests.length := by
    rcases List.get?_eq_some.mp h with ⟨hlt, -⟩
    exact hlt
  simp only [run_step]
  rcases hp : popMin s.event_queue with _ | er
  · exact ⟨ri, h, ha⟩
  · obtain ⟨e, rest⟩ := er
    obtain ⟨etime, ety, epay⟩ := e
    rcases ety with _ | _
    all_goals simp only [handle_requests]
    · exact handle_requests_loop_assigned_monotone _ _ i ri
        ((List.get?_append hlen).trans h) ha
    · refine handle_requests_loop_assigned_monotone _ _ i ri ?_ ha
      rw [handle_complete_event_requests]
      exact h

/-- C8 (amended): for every assignment performed at a time `t` no earlier than
the request's creation, the recorded service start `wait_end` is `t` (hence
`service_started_at ≥ created_at`), the service duration is non-negative, and
it is strictly positive whenever the pickup distance is; and the Assigned state
is never reversed — once a request carries `assigned = true`, it still does
after any further `run_step`. -/
theorem C8_completed_request_invariants (t : ℚ) (l : Lert) (r : Request) (g : Config)
    (s : SimState) (d : Draws) (h1 : r.time ≤ t) (h2 : 0 ≤ r.distance) (h3 : 0 < l.speed) :
    (l.assign t r).2.1.wait_end = some t
    ∧ r.time ≤ t
    ∧ 0 ≤ (l.assign t r).2.2
    ∧ (0 < r.distance → 0 < (l.assign t r).2.2)
    ∧ ∀ i ri, s.requests.get? i = some ri → ri.assigned = true →
        ∃ ri2, (run_step g s d).requests.get? i = some ri2 ∧ ri2.assigned = true := by
  refine ⟨rfl, h1, ?_, ?_, fun i ri h ha => run_step_assigned_monotone g s d i ri h ha⟩
  · have : (0 : ℚ) ≤ r.distance / l.speed := div_nonneg h2 (le_of_lt h3)
    simpa [Lert.assign] using add_nonneg this this
  · intro hpos
    have : (0 : ℚ) < r.distance / l.speed := div_pos hpos h3
    simpa [Lert.assign] using add_pos this this

/-- Closed instance of `C8_completed_request_invariants`. -/
theorem C8_completed_request_invariants_witness :
    ((0 : ℚ) ≤ 1 ∧ (0 : ℚ) ≤ 1 ∧ (0 : ℚ) < 1)
    ∧ ((Lert.create 0 1).assign 1 (Request.create 0 1 .to_station)).2.1.wait_end = some 1 :=
  ⟨⟨by decide, by decide, by decide⟩,
   (C8_completed_request_invariants 1 (Lert.create 0 1) (Request.create 0 1 .to_station)
     defaultConfig c2State (Draws.mk .to_station 0 0) (by decide) (by decide) (by decide)).1⟩

/-! ## Claim C7: the clock never moves backward -/

/-- Every scheduled event lies at or after the current time, every request is
at a non-negative distance, and every vehicle has positive speed.  The last two
mirror the supports of `np.random.uniform(0, R)` and the positive speeds of the
documented interface, and are what keeps scheduled completions in the future. -/
def WF (s : SimState) : Prop :=
  (∀ e ∈ s.event_queue, s.current_time ≤ e.time)
  ∧ (∀ r ∈ s.requests, 0 ≤ r.distance)
  ∧ (∀ l ∈ s.lerts, 0 < l.speed)

/-- Repeated `run_step` calls, consuming one `Draws` record per step — the
loop body of `run_until`. -/
def run_steps (g : Config) (s : SimState) (ds : List Draws) : SimState :=
  ds.foldl (run_step g) s

lemma keyLtb_irrefl (a : Event) : Event.keyLtb a a = false := by
  simp [Event.keyLtb]

lemma keyLtb_asymm {a b : Event} (h : Event.keyLtb a b = true) :
    Event.keyLtb b a = false := by
  simp only [Event.keyLtb, Bool.or_eq_true, Bool.and_eq_true, decide_eq_true_eq] at h
  simp only [Event.keyLtb, Bool.or_eq_false_iff, Bool.and_eq_false_iff,
    decide_eq_false_iff_not]
  rcases h with h | ⟨he, hr⟩
  · exact ⟨by linarith, Or.inl (by intro h2; linarith)⟩
  · exact ⟨by simp [he], Or.inr (by omega)⟩

lemma keyLtb_false_trans {a b c : Event} (h1 : Event.keyLtb a b = false)
    (h2 : Event.keyLtb b c = false) : Event.keyLtb a c = false := by
  simp only [Event.keyLtb, Bool.or_eq_false_iff, Bool.and_eq_false_iff,
    decide_eq_false_iff_not] at h1 h2 ⊢
  obtain ⟨h1t, h1r⟩ := h1
  obtain ⟨h2t, h2r⟩ := h2
  constructor
  · intro hac
    rcases lt_trichotomy a.time b.time with hb | hb | hb
    · exact h1t hb
    · rcases lt_trichotomy b.time c.time with hc | hc | hc
      · exact h2t hc
      · exact absurd hac (by rw [hb, hc]; exact lt_irrefl _)
      · linarith
    · rcases lt_trichotomy b.time c.time with hc | hc | hc
      · exact h2t hc
      · linarith
      · linarith
  · by_cases hteq : a.time = c.time
    · right
      have hab2 : b.time ≤ a.time := le_of_not_lt h1t
      have hbc2 : c.time ≤ b.time := le_of_not_lt h2t
      have hab1 : a.time ≤ b.time := by rw [hteq]; exact hbc2
      have hba : a.time = b.time := le_antisymm hab1 hab2
      have hbc3 : b.time = c.time := by rw [← hba, hteq]
      have hr1 : ¬ a.etype.rank < b.etype.rank := by
        rcases h1r with h | h
        · exact absurd hba h
        · exact h
      have hr2 : ¬ b.etype.rank < c.etype.rank := by
        rcases h2r with h | h
        · exact absurd hbc3 h
        · exact h
      omega
    · left
      exact hteq

lemma popMin_eq_none_iff (q : List Event) : popMin q = none ↔ q = [] := by
  cases q with
  | nil => simp [popMin]
  | cons e es =>
    constructor
    · intro hcon
      exfalso
      simp only [popMin] at hcon
      split at hcon
      · exact Option.noConfusion hcon
      · split at hcon <;> exact Option.noConfusion hcon
    · intro hcon
      exact absurd hcon (List.cons_ne_nil _ _)

/-- Soundness of the pop: the returned event is in the queue, the remainder is
drawn from the queue, and no queue entry is strictly smaller for the
`(time, type)` key. -/
lemma popMin_sound :
    ∀ (q : List Event) (e : Event) (rest : List Event), popMin q = some (e, rest) →
      e ∈ q ∧ (∀ x ∈ rest, x ∈ q) ∧ (∀ x ∈ q, Event.keyLtb x e = false) := by
  intro q
  induction q with
  | nil => intro e rest h; exact absurd h (by simp [popMin])
  | cons a as ih =>
    intro e rest h
    rcases hp : popMin as with _ | p
    · have heq : popMin (a :: as) = some (a, []) := by simp [popMin, hp]
      rw [heq] at h
      simp only [Option.some.injEq, Prod.mk.injEq] at h
      obtain ⟨rfl, rfl⟩ := h
      have has : as = [] := (popMin_eq_none_iff as).mp hp
      subst has
      refine ⟨List.mem_singleton_self _, by simp, ?_⟩
      intro x hx
      rcases List.mem_singleton.mp hx with rfl
      exact keyLtb_irrefl _
    · obtain ⟨m, rest0⟩ := p
      obtain ⟨hmem, hsub, hmin⟩ := ih m rest0 hp
      rcases hk : Event.keyLtb m a with _ | _
      · have heq : popMin (a :: as) = some (a, as) := by simp [popMin, hp, hk]
        rw [heq] at h
        simp only [Option.some.injEq, Prod.mk.injEq] at h
        obtain ⟨rfl, rfl⟩ := h
        refine ⟨List.mem_cons_self _ _, fun x hx => List.mem_cons_of_mem _ hx, ?_⟩
        intro x hx
        rcases List.mem_cons.mp hx with rfl | hx
        · exact keyLtb_irrefl _
        · exact keyLtb_false_trans (hmin x hx) hk
      · have heq : popMin (a :: as) = some (m, a :: rest0) := by simp [popMin, hp, hk]
        rw [heq] at h
        simp only [Option.some.injEq, Prod.mk.injEq] at h
        obtain ⟨rfl, rfl⟩ := h
        refine ⟨List.mem_cons_of_mem _ hmem, ?_, ?_⟩
        · intro x hx
          rcases List.mem_cons.mp hx with rfl | hx
          · exact List.mem_cons_self _ _
          · exact List.mem_cons_of_mem _ (hsub x hx)
        · intro x hx
          rcases List.mem_cons.mp hx with rfl | hx
          · exact keyLtb_asymm hk
          · exact hmin x hx

/-- A popped event's timestamp is a lower bound for the whole queue. -/
lemma le_time_of_keyLtb_false {x e : Event} (h : Event.keyLtb x e = false) :
    e.time ≤ x.time := by
  by_contra hlt
  push_neg at hlt
  have : Event.keyLtb x e = true := by simp [Event.keyLtb, hlt]
  simp [this] at h

lemma handle_requests_loop_current_time (l : List (ℕ × Request)) :
    ∀ s : SimState, (handle_requests_loop l s).current_time = s.current_time := by
  induction l with
  | nil => intro s; rfl
  | cons p rest ih =>
    intro s
    obtain ⟨i, r⟩ := p
    simp only [handle_requests_loop]
    rcases hf : find_available_lert s with _ | j
    · rfl
    · rcases hr : s.requests.get? i with _ | r1
      all_goals rcases hl : s.lerts.get? j with _ | l1
      all_goals simp only [hr, hl]
      all_goals exact ih _

lemma handle_requests_current_time (s : SimState) :
    (handle_requests s).current_time = s.current_time :=
  handle_requests_loop_current_time (sortedUnassigned s) s

/-- The dispatch loop preserves the three well-formedness facts: every event it
pushes is a completion at `current_time + duration` with a non-negative
duration (non-negative distance over positive speed, twice), it only writes
requests with the original distance, and only writes vehicles with the
original speed. -/
lemma handle_requests_loop_preserves (l : List (ℕ × Request)) :
    ∀ s : SimState,
      (∀ e ∈ s.event_queue, s.current_time ≤ e.time) →
      (∀ r ∈ s.requests, 0 ≤ r.distance) →
      (∀ lt ∈ s.lerts, 0 < lt.speed) →
      (∀ e ∈ (handle_requests_loop l s).event_queue, s.current_time ≤ e.time)
      ∧ (∀ r ∈ (handle_requests_loop l s).requests, 0 ≤ r.distance)
      ∧ (∀ lt ∈ (handle_requests_loop l s).lerts, 0 < lt.speed) := by
  induction l with
  | nil => intro s hq hr hl; exact ⟨hq, hr, hl⟩
  | cons p rest ih =>
    intro s hq hr hl
    obtain ⟨i, r⟩ := p
    simp only [handle_requests_loop]
    rcases hf : find_available_lert s with _ | j
    · exact ⟨hq, hr, hl⟩
    · rcases hri : s.requests.get? i with _ | r1
      all_goals rcases hli : s.lerts.get? j with _ | l1
      all_goals simp only [hri, hli]
      · exact ih s hq hr hl
      · exact ih s hq hr hl
      · exact ih s hq hr hl
      · have hr1 : 0 ≤ r1.distance := hr r1 (List.get?_mem hri)
        have hl1 : 0 < l1.speed := hl l1 (List.get?_mem hli)
        have hdur : 0 ≤ (l1.assign s.current_time { r1 with assigned := true }).2.2 := by
          have hdiv : (0 : ℚ) ≤ r1.distance / l1.speed := div_nonneg hr1 (le_of_lt hl1)
          simpa [Lert.assign] using add_nonneg hdiv hdiv
        refine ih _ ?_ ?_ ?_
        · intro e he
          rcases List.mem_append.mp he with he | he
          · exact hq e he
          · rcases List.mem_singleton.mp he with rfl
            exact le_add_of_nonneg_right hdur
        · intro r2 hr2
          rcases List.mem_or_eq_of_mem_set hr2 with hr2 | rfl
          · exact hr r2 hr2
          · simpa [Lert.assign] using hr1
        · intro l2 hl2
          rcases List.mem_or_eq_of_mem_set hl2 with hl2 | rfl
          · exact hl l2 hl2
          · simpa [Lert.assign] using hl1

lemma handle_requests_preserves (s : SimState)
    (hq : ∀ e ∈ s.event_queue, s.current_time ≤ e.time)
    (hr : ∀ r ∈ s.requests, 0 ≤ r.distance)
    (hl : ∀ lt ∈ s.lerts, 0 < lt.speed) : WF (handle_requests s) := by
  obtain ⟨h1, h2, h3⟩ := handle_requests_loop_preserves (sortedUnassigned s) s hq hr hl
  refine ⟨?_, h2, h3⟩
  intro e he
  rw [handle_requests_current_time]
  exact h1 e he

lemma interArrivalGap_nonneg (g : Config) (u : ℚ) (hg : 0 < g.REQUEST_RATE) (hu : 0 ≤ u) :
    0 ≤ interArrivalGap g u := by
  rcases hp : g.POISSON_REQUESTS with _ | _
  · simp only [interArrivalGap, hp, Bool.false_eq_true, if_false]
    positivity
  · simp only [interArrivalGap, hp, if_true]
    have : (0 : ℚ) ≤ 1 / g.REQUEST_RATE := by positivity
    exact mul_nonneg this hu

/-- One `run_step` preserves well-formedness and never decreases the clock. -/
lemma run_step_WF (g : Config) (s : SimState) (d : Draws) (hg : 0 < g.REQUEST_RATE)
    (hd1 : 0 ≤ d.dist) (hd2 : 0 ≤ d.gap_u) (hs : WF s) :
    WF (run_step g s d) ∧ s.current_time ≤ (run_step g s d).current_time := by
  obtain ⟨hsq, hsr, hsl⟩ := hs
  rcases hp : popMin s.event_queue with _ | p
  · simp only [run_step, hp]
    exact ⟨⟨hsq, hsr, hsl⟩, le_refl _⟩
  · obtain ⟨⟨etime, ety, epay⟩, rest⟩ := p
    obtain ⟨hmem, hsub, hmin⟩ := popMin_sound s.event_queue _ rest hp
    have htime : s.current_time ≤ etime := hsq _ hmem
    have hrest : ∀ x ∈ rest, etime ≤ x.time := by
      intro x hx
      exact le_time_of_keyLtb_false (hmin x (hsub x hx))
    rcases ety with _ | _
    · simp only [run_step, hp]
      have hwf := handle_requests_preserves
        (handle_arrival_event g
          { s with event_queue := rest, current_time := etime } d.dir d.dist d.gap_u)
        (by
          intro e he
          simp only [handle_arrival_event, schedule_next_request_arrival, heappush,
            Request.create] at he ⊢
          rcases List.mem_append.mp he with he | he
          · exact hrest e he
          · rcases List.mem_singleton.mp he with rfl
            exact le_add_of_nonneg_right (interArrivalGap_nonneg g d.gap_u hg hd2))
        (by
          intro r hrm
          simp only [handle_arrival_event, schedule_next_request_arrival, heappush,
            Request.create] at hrm
          rcases List.mem_append.mp hrm with hrm | hrm
          · exact hsr r hrm
          · rcases List.mem_singleton.mp hrm with rfl
            exact hd1)
        (by
          intro lt hlt
          simp only [handle_arrival_event, schedule_next_request_arrival, heappush] at hlt
          exact hsl lt hlt)
      refine ⟨hwf, ?_⟩
      rw [handle_requests_current_time]
      simpa [handle_arrival_event, schedule_next_request_arrival] using htime
    · simp only [run_step, hp]
      have hwf := handle_requests_preserves
        (handle_complete_event { s with event_queue := rest, current_time := etime } epay)
        (by
          intro e he
          rw [handle_complete_event_queue] at he
          rw [handle_complete_event_current_time]
          exact hrest e he)
        (by
          intro r hrm
          rw [handle_complete_event_requests] at hrm
          exact hsr r hrm)
        (by
          intro lt hlt
          rw [handle_complete_event_lerts] at hlt
          exact hsl lt hlt)
      refine ⟨hwf, ?_⟩
      rw [handle_requests_current_time, handle_complete_event_current_time]
      exact htime

/-- Well-formedness and clock monotonicity extend to any sequence of steps. -/
lemma run_steps_WF (g : Config) (ds : List Draws) (hg : 0 < g.REQUEST_RATE) :
    ∀ s : SimState, (∀ x ∈ ds, 0 ≤ x.dist ∧ 0 ≤ x.gap_u) → WF s →
      WF (run_steps g s ds) ∧ s.current_time ≤ (run_steps g s ds).current_time := by
  induction ds with
  | nil => intro s _ hs; exact ⟨hs, le_refl _⟩
  | cons d ds ih =>
    intro s hds hs
    have hd := hds d (List.mem_cons_self _ _)
    have h1 := run_step_WF g s d hg hd.1 hd.2 hs
    have h2 := ih (run_step g s d) (fun x hx => hds x (List.mem_cons_of_mem _ hx)) h1.1
    exact ⟨h2.1, le_trans h1.2 h2.2⟩

/-- The constructed initial state is well-formed. -/
lemma initState_WF (g : Config) (u : ℚ) (hg : 0 < g.REQUEST_RATE)
    (hgs : 0 < g.LERT_SPEED) (hu : 0 ≤ u) : WF (initState g u) := by
  refine ⟨?_, ?_, ?_⟩
  · intro e he
    simp only [initState, schedule_next_request_arrival, heappush, List.nil_append,
      List.mem_singleton] at he
    subst he
    simpa using interArrivalGap_nonneg g u hg hu
  · intro r hrm
    simp only [initState, schedule_next_request_arrival] at hrm
    exact absurd hrm (List.not_mem_nil r)
  · intro lt hlt
    simp only [initState, schedule_next_request_arrival, List.mem_map] at hlt
    obtain ⟨i, -, rfl⟩ := hlt
    exact hgs

/-- C7: under the documented configuration domain (positive rate and speeds)
and the supports of the random draws, well-formedness — in particular that
every queued event is scheduled at or after `current_time` — holds in the
initial state, is preserved by every `run_step`, and consequently
`current_time` never decreases, neither across one step nor across any
sequence of steps. -/
theorem C7_clock_monotone (g : Config) (s : SimState) (d : Draws) (u : ℚ) (ds : List Draws)
    (hg : 0 < g.REQUEST_RATE) (hgs : 0 < g.LERT_SPEED) (hu : 0 ≤ u)
    (hd : 0 ≤ d.dist ∧ 0 ≤ d.gap_u) (hds : ∀ x ∈ ds, 0 ≤ x.dist ∧ 0 ≤ x.gap_u)
    (hs : WF s) :
    WF (initState g u)
    ∧ (∀ e ∈ s.event_queue, s.current_time ≤ e.time)
    ∧ WF (run_step g s d)
    ∧ s.current_time ≤ (run_step g s d).current_time
    ∧ s.current_time ≤ (run_steps g s ds).current_time :=
  ⟨initState_WF g u hg hgs hu, hs.1,
   (run_step_WF g s d hg hd.1 hd.2 hs).1,
   (run_step_WF g s d hg hd.1 hd.2 hs).2,
   (run_steps_WF g ds hg s hds hs).2⟩

/-- A decide-friendly configuration with unit rate and unit speed. -/
def cfgUnit : Config :=
  { METRO_RADIUS := 3, REQUEST_RATE := 1, LERT_SPEED_KMH := 3600,
    LERT_SPEED := 1, POISSON_REQUESTS := true }

/-- Closed instance of `C7_clock_monotone` at the two-vehicle state
`c9Mixed`. -/
theorem C7_clock_monotone_witness :
    ((0 : ℚ) < cfgUnit.REQUEST_RATE ∧ (0 : ℚ) < cfgUnit.LERT_SPEED)
    ∧ c9Mixed.current_time ≤
        (run_step cfgUnit c9Mixed (Draws.mk .to_station 0 0)).current_time :=
  ⟨⟨by decide, by decide⟩,
   (C7_clock_monotone cfgUnit c9Mixed (Draws.mk .to_station 0 0) 0 []
     (by decide) (by decide) (by decide) ⟨by decide, by decide⟩ (by decide)
     ⟨by decide, by decide, by decide⟩).2.2.2.1⟩

end BasicLerts
